import Mathlib

/-!
# Contractor ranking and cost-adjustment scoring: a shallow embedding

This file embeds the decision core of the trade-estimator backend — the
contractor ranking pipeline (quality filtering with a relaxed fallback tier,
weighted five-component scoring, stable sort, top-N truncation) and the
photo-analysis cost-adjustment composer (factor defaulting, averaging,
rounding, confidence clamping) — and proves the specified properties about it.

Strings are modelled at the character-list level so that JS `toLowerCase`,
`split(' ')` and `includes` have exact counterparts; JS numbers are modelled
as exact rationals (reals where `Math.log10` forces it); `Math.round` is
`⌊x + 1/2⌋` (half-integers round toward +∞, as in JS).
-/

namespace TradeEstimator

/-- Lower-case a string into its character list (JS `s.toLowerCase()`). -/
def lowerChars (s : String) : List Char := s.data.map Char.toLower

/-- JS `String.prototype.split(' ')` over a character list: split at every
single space, keeping empty pieces (so `''.split(' ')` is `['']` and
consecutive spaces produce empty tokens). -/
def splitSp : List Char → List (List Char)
  | [] => [[]]
  | c :: rest =>
    if c = ' ' then [] :: splitSp rest
    else
      match splitSp rest with
      | [] => [[c]]
      | t :: ts => (c :: t) :: ts

/-- JS `hay.includes(tok)`: `tok` occurs as a contiguous substring of `hay`. -/
def containsTok (hay tok : List Char) : Bool := decide (tok <:+: hay)

/-- A candidate business from the places lookup, after the source's
`place.rating || 0` / `place.user_ratings_total || 0` defaulting. -/
structure Candidate where
  name : String
  address : String
  rating : ℚ
  reviewCount : ℕ
  categories : List String
  hasWebsite : Bool
  hasPhone : Bool
  isOpenNow : Bool
  deriving DecidableEq

/-- The `filtersUsed` record reported next to the ranked list. -/
structure FilterTier where
  minimumRating : ℚ
  minimumReviews : ℕ
  relaxed : Bool
  deriving DecidableEq

/-- A candidate tagged with the `qualityVerified` flag by the tier step. -/
structure TaggedCandidate where
  candidate : Candidate
  qualityVerified : Bool
  deriving DecidableEq

/-- The fixed threshold constants of a deployment variant of the ranker. -/
structure RankerConfig where
  strictMinRating : ℚ
  strictMinReviews : ℕ
  relaxedMinRating : ℚ
  relaxedMinReviews : ℕ
  minAcceptable : ℕ
  deriving DecidableEq

/-- Variant of `part_004`: strict = (4.0, 5), relaxed = (3.5, 3), and the
strict set is kept only when it has at least 3 entries. -/
def cfg004 : RankerConfig :=
  { strictMinRating := 4
    strictMinReviews := 5
    relaxedMinRating := 7/2
    relaxedMinReviews := 3
    minAcceptable := 1 + 2 }

/-- Variant of `part_002`: strict = (4.0, 10), relaxed = (3.5, 3), and the
filters relax only when the strict set is empty (`length < 1`). -/
def cfg002 : RankerConfig :=
  { strictMinRating := 4
    strictMinReviews := 10
    relaxedMinRating := 7/2
    relaxedMinReviews := 3
    minAcceptable := 1 }

/-- The threshold test `rating >= minRating && reviews >= minReviews`. -/
def passes (minRating : ℚ) (minReviews : ℕ) (c : Candidate) : Bool :=
  decide (minRating ≤ c.rating) && decide (minReviews ≤ c.reviewCount)

/-- The spec's `filterCandidates(candidates, tier)`: keep the candidates
meeting the tier's thresholds, preserving order. -/
def filterCandidates (cands : List Candidate) (minRating : ℚ) (minReviews : ℕ) :
    List Candidate :=
  cands.filter (passes minRating minReviews)

/-- Two-tier fallback: filter with the strict thresholds, tag survivors
`qualityVerified := true`; when fewer than `minAcceptable` survive, discard
them and instead filter with the relaxed thresholds, tagging
`qualityVerified := false`. Returns the retained list and the `filtersUsed`
record. -/
def selectTier (cfg : RankerConfig) (cands : List Candidate) :
    List TaggedCandidate × FilterTier :=
  let strictList :=
    (filterCandidates cands cfg.strictMinRating cfg.strictMinReviews).map
      (fun c => ⟨c, true⟩)
  if strictList.length < cfg.minAcceptable then
    ((filterCandidates cands cfg.relaxedMinRating cfg.relaxedMinReviews).map
        (fun c => ⟨c, false⟩),
      { minimumRating := cfg.relaxedMinRating
        minimumReviews := cfg.relaxedMinReviews
        relaxed := true })
  else
    (strictList,
      { minimumRating := cfg.strictMinRating
        minimumReviews := cfg.strictMinReviews
        relaxed := false })

/-- The lower-cased `` `${name} ${types.join(' ')}` `` haystack the scorer
matches keyword tokens against. -/
def nameAndTypes (c : Candidate) : List Char :=
  lowerChars (c.name ++ " " ++ String.intercalate " " c.categories)

/-- The keyword tokens `searchQuery.toLowerCase().split(' ')`. -/
def keywordTokens (kw : String) : List (List Char) :=
  splitSp (lowerChars kw)

/-- Component 1, rating weight (35%): `(contractor.rating / 5) * 35`. -/
def ratingScore (c : Candidate) : ℚ := c.rating / 5 * 35

/-- Component 2, review volume (25%):
`Math.min(Math.log10(totalReviews + 1) / 2, 1) * 25`. -/
noncomputable def reviewScore (n : ℕ) : ℝ :=
  min (Real.logb 10 ((n : ℝ) + 1) / 2) 1 * 25

/-- Component 3, keyword relevance (20%): 5 points per keyword token found in
`nameAndTypes`, capped at 20. -/
def relevanceScore (c : Candidate) (kw : String) : ℚ :=
  min
    ((keywordTokens kw).foldl
      (fun acc t => if containsTok (nameAndTypes c) t then acc + 5 else acc) 0)
    20

/-- Component 4, currently open (10%). -/
def activeScore (c : Candidate) : ℚ := if c.isOpenNow then 10 else 0

/-- Component 5, professional presence (10%): 5 for a website plus 5 for a
phone number. -/
def professionalScore (c : Candidate) : ℚ :=
  (if c.hasWebsite then 5 else 0) + (if c.hasPhone then 5 else 0)

/-- JS `Math.round`: nearest integer, half-integers toward +∞. -/
noncomputable def jsRound (x : ℝ) : ℤ := ⌊x + 1/2⌋

/-- The accumulated `score` before rounding. -/
noncomputable def totalScore (c : Candidate) (kw : String) : ℝ :=
  (ratingScore c : ℝ) + reviewScore c.reviewCount + (relevanceScore c kw : ℝ)
    + (activeScore c : ℝ) + (professionalScore c : ℝ)

/-- The rounded total `matchScore: Math.round(score)`. -/
noncomputable def matchScore (c : Candidate) (kw : String) : ℤ :=
  jsRound (totalScore c kw)

/-- The per-component contributions returned next to the score (the source
renders each with `toFixed(1)` for display; we record the numeric value). -/
structure ScoreBreakdown where
  rating : ℝ
  reviews : ℝ
  relevance : ℝ
  active : ℝ
  professional : ℝ

noncomputable def scoreBreakdown (c : Candidate) (kw : String) : ScoreBreakdown :=
  { rating := (ratingScore c : ℝ)
    reviews := reviewScore c.reviewCount
    relevance := (relevanceScore c kw : ℝ)
    active := (activeScore c : ℝ)
    professional := (professionalScore c : ℝ) }

/-- A scored entry of the ranked output. -/
structure RankedContractor where
  candidate : Candidate
  qualityVerified : Bool
  matchScore : ℤ
  scoreBreakdown : ScoreBreakdown

noncomputable def scoreTagged (kw : String) (t : TaggedCandidate) : RankedContractor :=
  { candidate := t.candidate
    qualityVerified := t.qualityVerified
    matchScore := matchScore t.candidate kw
    scoreBreakdown := scoreBreakdown t.candidate kw }

/-- The comparator `(a, b) => b.matchScore - a.matchScore` as the ordering it
induces: `a` may precede `b` iff `b.matchScore ≤ a.matchScore`. -/
def leScore (a b : RankedContractor) : Bool := decide (b.matchScore ≤ a.matchScore)

/-- The scored list in retained (input) order, before sorting. -/
noncomputable def scoredList (cfg : RankerConfig) (cands : List Candidate)
    (kw : String) : List RankedContractor :=
  ((selectTier cfg cands).1).map (scoreTagged kw)

/-- The ranking pipeline `rank`: tier selection, scoring, stable sort descending by `matchScore`
(JS `Array.prototype.sort` is stable), then `slice(0, topN)`. -/
noncomputable def rank (cfg : RankerConfig) (cands : List Candidate)
    (kw : String) (topN : ℕ) : List RankedContractor × FilterTier :=
  (((scoredList cfg cands kw).mergeSort leScore).take topN,
    (selectTier cfg cands).2)

/-- The parsed vision-model factors; `none` models an absent field. -/
structure VisionAssessment where
  complexity : Option ℚ
  condition : Option ℚ
  access : Option ℚ
  materialQuality : Option ℚ
  deriving DecidableEq

/-- JS `(x || 1)` on an optional numeric field: an absent field and the falsy
value `0` become `1`; any other number is kept. -/
def orOne : Option ℚ → ℚ
  | none => 1
  | some v => if v = 0 then 1 else v

/-- JS `Math.round` on a rational. -/
def jsRoundQ (q : ℚ) : ℤ := ⌊q + 1/2⌋

structure CostAdjustmentResult where
  adjustment : ℚ
  confidence : ℤ
  deriving DecidableEq

/-- The mean `avgMultiplier` of the four defaulted factors. -/
def avgMultiplier (a : VisionAssessment) : ℚ :=
  (orOne a.complexity + orOne a.condition + orOne a.access
    + orOne a.materialQuality) / 4

/-- The composer of `part_002`: adjustment is the average rounded to two
decimals, confidence is `Math.round((1 - |1 - avg|) * 100)` clamped to the
canonical `[0, 100]` band. -/
def compose (a : VisionAssessment) : CostAdjustmentResult :=
  { adjustment := (jsRoundQ (avgMultiplier a * 100) : ℚ) / 100
    confidence := max 0 (min 100 (jsRoundQ ((1 - |1 - avgMultiplier a|) * 100))) }

/-- The `part_003` variant, identical except that confidence is clamped to
the narrower display band `[60, 95]`. -/
def composeDisplay (a : VisionAssessment) : CostAdjustmentResult :=
  { adjustment := (jsRoundQ (avgMultiplier a * 100) : ℚ) / 100
    confidence := min 95 (max 60 (jsRoundQ ((1 - |1 - avgMultiplier a|) * 100))) }

/-- The field coercion as the spec's sentence words it ("substitute 1.0 if
absent/non-numeric"): within the numeric model, substitute only when the
field is absent. Stated for comparison with the source's `orOne`. -/
def specCoerce (v : Option ℚ) : ℚ := v.getD 1

def avgMultiplierClaimed (a : VisionAssessment) : ℚ :=
  (specCoerce a.complexity + specCoerce a.condition + specCoerce a.access
    + specCoerce a.materialQuality) / 4

/-- The composer as the spec's defaulting sentence describes it, for comparison. -/
def composeClaimed (a : VisionAssessment) : CostAdjustmentResult :=
  { adjustment := (jsRoundQ (avgMultiplierClaimed a * 100) : ℚ) / 100
    confidence :=
      max 0 (min 100 (jsRoundQ ((1 - |1 - avgMultiplierClaimed a|) * 100))) }

lemma foldl_add5 (p : List Char → Bool) (l : List (List Char)) (acc : ℚ) :
    l.foldl (fun a t => if p t then a + 5 else a) acc = acc + 5 * l.countP p := by
  induction l generalizing acc with
  | nil => simp
  | cons h t ih =>
    by_cases hp : p h
    · simp [List.countP_cons, hp, ih]
      ring
    · simp [List.countP_cons, hp, ih]

/-- The relevance component in closed form: five points per matching keyword
token (duplicates counted with multiplicity), capped at 20. -/
lemma relevanceScore_eq (c : Candidate) (kw : String) :
    relevanceScore c kw =
      min (5 * ((keywordTokens kw).countP (containsTok (nameAndTypes c)) : ℚ)) 20 := by
  unfold relevanceScore
  rw [foldl_add5]
  norm_num

lemma keywordTokens_empty : keywordTokens "" = [[]] := rfl

lemma containsTok_nil (hay : List Char) : containsTok hay [] = true :=
  decide_eq_true List.nil_infix

/-- C2: composing the all-ones assessment and composing the empty assessment
both give the neutral result: adjustment 1.0, confidence 100. -/
theorem c2_neutral_compose :
    compose ⟨some 1, some 1, some 1, some 1⟩ = ⟨1, 100⟩ ∧
    compose ⟨none, none, none, none⟩ = ⟨1, 100⟩ := by
  constructor <;>
    · simp only [compose, avgMultiplier, orOne, jsRoundQ, CostAdjustmentResult.mk.injEq]
      norm_num [Int.floor_eq_iff]

/-- C4: composing the all-1.5 assessment gives adjustment 1.5 and confidence
50 — `round((1 - |1 - 1.5|) * 100) = 50`, untouched by the `[0, 100]` clamp. -/
theorem c4_compose_three_halves :
    compose ⟨some (3/2), some (3/2), some (3/2), some (3/2)⟩ = ⟨3/2, 50⟩ := by
  simp only [compose, avgMultiplier, orOne, jsRoundQ, CostAdjustmentResult.mk.injEq]
  norm_num [Int.floor_eq_iff, abs_of_nonpos]

/-- C7 counterexample: on the assessment with `complexity = 0` (a present,
numeric field), the source's composer substitutes 1 for it (JS `||` treats 0
as falsy) and returns the neutral result, while the claim's
absent-or-non-numeric-only defaulting would average the 0 in and return
adjustment 3/4; so substitution is not limited to absent/non-numeric fields. -/
theorem c7_counterexample_zero_field :
    compose ⟨some 0, some 1, some 1, some 1⟩ = ⟨1, 100⟩ ∧
    composeClaimed ⟨some 0, some 1, some 1, some 1⟩ = ⟨3/4, 75⟩ ∧
    compose ⟨some 0, some 1, some 1, some 1⟩ ≠
      composeClaimed ⟨some 0, some 1, some 1, some 1⟩ := by
  have habs : |(1:ℚ)/4| = 1/4 := by
    rw [abs_of_nonneg] ; norm_num
  refine ⟨?_, ?_, ?_⟩ <;>
    simp only [compose, composeClaimed, avgMultiplier, avgMultiplierClaimed, orOne,
      specCoerce, jsRoundQ, Option.getD, CostAdjustmentResult.mk.injEq, ne_eq] <;>
    norm_num [Int.floor_eq_iff, habs]

/-- C7 amended: the composer substitutes 1.0 for a field exactly when it is
absent or its numeric value is 0 (JS falsy), it is a total function, and its
result is bounded: the adjustment is the two-decimal rounding of the average
of the four coerced factors and the confidence lies in [0, 100]. -/
theorem c7_amended_defaulting :
    (∀ v : ℚ, orOne (some v) = if v = 0 then 1 else v) ∧
    orOne none = 1 ∧
    (∀ a : VisionAssessment,
      (compose a).adjustment = (jsRoundQ (avgMultiplier a * 100) : ℚ) / 100 ∧
      0 ≤ (compose a).confidence ∧ (compose a).confidence ≤ 100) := by
  refine ⟨fun v => rfl, rfl, fun a => ⟨rfl, le_max_left 0 _, ?_⟩⟩
  exact max_le (by norm_num) (min_le_left _ _)

/-- C10: scoring with the empty keyword yields a relevance component of 5
(the split of `""` is the single empty token, which occurs in every
haystack), and in general the relevance component is `min(5 * k, 20)` where
`k` counts matching tokens with multiplicity, so duplicated and empty tokens
each contribute 5 toward the cap. -/
theorem c10_relevance_component (c : Candidate) (kw : String) :
    relevanceScore c "" = 5 ∧
    relevanceScore c kw =
      min (5 * ((keywordTokens kw).countP (containsTok (nameAndTypes c)) : ℚ)) 20 := by
  constructor
  · rw [relevanceScore_eq, keywordTokens_empty]
    simp [containsTok_nil]
    norm_num
  · exact relevanceScore_eq c kw

lemma selectTier_qualityVerified (cfg : RankerConfig) (l : List Candidate)
    (t : TaggedCandidate) (ht : t ∈ (selectTier cfg l).1) :
    t.qualityVerified = !(selectTier cfg l).2.relaxed := by
  unfold selectTier at ht ⊢
  by_cases h :
      ((filterCandidates l cfg.strictMinRating cfg.strictMinReviews).map
        (fun c => (⟨c, true⟩ : TaggedCandidate))).length < cfg.minAcceptable <;>
    simp only [h, if_true, if_false, if_pos, if_neg, not_false_iff] at ht ⊢ <;>
    obtain ⟨c, -, rfl⟩ := List.mem_map.mp ht <;> rfl

/-- C3: when exactly 2 candidates pass the strict tier and the minimum
acceptable count is 3 (the `part_004` constants), `selectTier` returns the
relaxed-tier filtered set (rating ≥ 3.5, reviews ≥ 3) — not the strict set —
reports the relaxed tier as the one used, and tags every returned candidate
`qualityVerified = false`; in general every retained candidate's
`qualityVerified` flag equals (tier used = strict). -/
theorem c3_tier_relaxation (cands : List Candidate)
    (h2 : (filterCandidates cands 4 5).length = 2) :
    (selectTier cfg004 cands).1 =
      (filterCandidates cands (7/2) 3).map (fun c => ⟨c, false⟩) ∧
    (selectTier cfg004 cands).1 ≠
      (filterCandidates cands 4 5).map (fun c => ⟨c, true⟩) ∧
    (selectTier cfg004 cands).2 = ⟨7/2, 3, true⟩ ∧
    (∀ t ∈ (selectTier cfg004 cands).1, t.qualityVerified = false) ∧
    (∀ (cfg : RankerConfig) (l : List Candidate) (t : TaggedCandidate),
      t ∈ (selectTier cfg l).1 →
      t.qualityVerified = !(selectTier cfg l).2.relaxed) := by
  have hlt :
      ((filterCandidates cands cfg004.strictMinRating cfg004.strictMinReviews).map
        (fun c => (⟨c, true⟩ : TaggedCandidate))).length < cfg004.minAcceptable := by
    rw [List.length_map]
    show (filterCandidates cands 4 5).length < 3
    omega
  have hsel : selectTier cfg004 cands =
      ((filterCandidates cands (7/2) 3).map (fun c => ⟨c, false⟩),
        ⟨7/2, 3, true⟩) := by
    unfold selectTier
    rw [if_pos hlt]
    rfl
  refine ⟨by rw [hsel], ?_, by rw [hsel], ?_, selectTier_qualityVerified⟩
  · rw [hsel]
    intro h
    rcases e : filterCandidates cands 4 5 with - | ⟨a, l⟩
    · rw [e] at h2 ; exact absurd h2 (by simp)
    · have hmem : (⟨a, true⟩ : TaggedCandidate) ∈
          (filterCandidates cands 4 5).map (fun c => (⟨c, true⟩ : TaggedCandidate)) := by
        rw [e]
        exact List.mem_map_of_mem _ (List.mem_cons_self _ _)
      rw [← h] at hmem
      obtain ⟨c, -, hc⟩ := List.mem_map.mp hmem
      exact absurd (congrArg TaggedCandidate.qualityVerified hc) (by simp)
  · intro t ht
    rw [hsel] at ht
    obtain ⟨c, -, rfl⟩ := List.mem_map.mp ht
    rfl

def candA : Candidate := ⟨"Acme Painters", "1 High St", 4, 6, ["painter"], true, true, true⟩

def candB : Candidate := ⟨"Brush Bros", "2 High St", 9/2, 10, ["painter"], true, true, false⟩

def candC : Candidate := ⟨"Cheap Decor", "3 High St", 37/10, 4, ["decorator"], false, false, false⟩

theorem c3_witness :
    (filterCandidates [candA, candB, candC] 4 5).length = 2 ∧
    (selectTier cfg004 [candA, candB, candC]).2 = ⟨7/2, 3, true⟩ :=
  ⟨by norm_num [filterCandidates, List.filter, passes, candA, candB, candC],
    (c3_tier_relaxation [candA, candB, candC]
      (by norm_num [filterCandidates, List.filter, passes, candA, candB, candC])).2.2.1⟩

lemma reviewScore_nonneg (n : ℕ) : 0 ≤ reviewScore n := by
  unfold reviewScore
  have hn : (0:ℝ) ≤ (n : ℝ) := Nat.cast_nonneg n
  have hlog : 0 ≤ Real.logb 10 ((n : ℝ) + 1) :=
    Real.logb_nonneg (by norm_num) (by linarith)
  have : (0:ℝ) ≤ min (Real.logb 10 ((n : ℝ) + 1) / 2) 1 :=
    le_min (by linarith) (by norm_num)
  linarith

lemma reviewScore_le (n : ℕ) : reviewScore n ≤ 25 := by
  unfold reviewScore
  have : min (Real.logb 10 ((n : ℝ) + 1) / 2) 1 ≤ 1 := min_le_right _ _
  linarith

lemma reviewScore_zero : reviewScore 0 = 0 := by
  unfold reviewScore
  norm_num [Real.logb_one]

lemma logb_ten_ge_two {n : ℕ} (h : 99 ≤ n) :
    (2:ℝ) ≤ Real.logb 10 ((n : ℝ) + 1) := by
  have h100 : (100:ℝ) ≤ (n : ℝ) + 1 := by
    have : (99:ℝ) ≤ (n : ℝ) := by exact_mod_cast h
    linarith
  calc (2:ℝ) = Real.logb 10 100 := by
        rw [show (100:ℝ) = 10 ^ (2:ℕ) by norm_num, Real.logb_pow,
          Real.logb_self_eq_one (by norm_num)]
        norm_num
    _ ≤ Real.logb 10 ((n : ℝ) + 1) :=
        Real.logb_le_logb_of_le (by norm_num) (by norm_num) h100

/-- The review-volume term saturates at its 25-point cap once
`reviewCount ≥ 99`, i.e. once `log10(reviewCount + 1) / 2 ≥ 1`. -/
lemma reviewScore_sat {n : ℕ} (h : 99 ≤ n) : reviewScore n = 25 := by
  unfold reviewScore
  have h2 := logb_ten_ge_two h
  rw [min_eq_right (by linarith)]
  norm_num

lemma jsRound_nonneg {x : ℝ} (h : 0 ≤ x) : 0 ≤ jsRound x := by
  unfold jsRound
  exact Int.le_floor.mpr (by push_cast ; linarith)

lemma jsRound_le_hundred {x : ℝ} (h : x ≤ 100) : jsRound x ≤ 100 := by
  unfold jsRound
  have : (⌊x + 1/2⌋ : ℤ) < 101 := Int.floor_lt.mpr (by push_cast ; linarith)
  omega

lemma ratingScore_cast (c : Candidate) :
    ((ratingScore c : ℚ) : ℝ) = (c.rating : ℝ) / 5 * 35 := by
  unfold ratingScore
  push_cast
  ring

lemma relevanceScore_cast (c : Candidate) (kw : String) :
    ((relevanceScore c kw : ℚ) : ℝ) =
      min (5 * ((keywordTokens kw).countP (containsTok (nameAndTypes c)) : ℝ)) 20 := by
  rw [relevanceScore_eq]
  rw [Rat.cast_min]
  push_cast
  ring_nf

lemma activeScore_cast (c : Candidate) :
    ((activeScore c : ℚ) : ℝ) = if c.isOpenNow then 10 else 0 := by
  unfold activeScore
  by_cases h : c.isOpenNow <;> simp [h]

lemma professionalScore_cast (c : Candidate) :
    ((professionalScore c : ℚ) : ℝ) =
      (if c.hasWebsite then 5 else 0) + (if c.hasPhone then 5 else 0) := by
  unfold professionalScore
  by_cases h : c.hasWebsite <;> by_cases h' : c.hasPhone <;> simp [h, h']

/-- The accumulated score, written as the spec's five-component formula. -/
lemma totalScore_eq (c : Candidate) (kw : String) :
    totalScore c kw =
      (c.rating : ℝ) / 5 * 35
        + min (Real.logb 10 ((c.reviewCount : ℝ) + 1) / 2) 1 * 25
        + min (5 * ((keywordTokens kw).countP (containsTok (nameAndTypes c)) : ℝ)) 20
        + (if c.isOpenNow then 10 else 0)
        + ((if c.hasWebsite then 5 else 0) + (if c.hasPhone then 5 else 0)) := by
  unfold totalScore
  rw [ratingScore_cast, relevanceScore_cast, activeScore_cast, professionalScore_cast]
  rfl

lemma totalScore_bounds (c : Candidate) (kw : String)
    (h0 : 0 ≤ c.rating) (h5 : c.rating ≤ 5) :
    0 ≤ totalScore c kw ∧ totalScore c kw ≤ 100 := by
  rw [totalScore_eq]
  have hr0 : (0:ℝ) ≤ (c.rating : ℝ) := by exact_mod_cast h0
  have hr5 : (c.rating : ℝ) ≤ 5 := by exact_mod_cast h5
  have hv0 := reviewScore_nonneg c.reviewCount
  have hv25 := reviewScore_le c.reviewCount
  unfold reviewScore at hv0 hv25
  have hl0 : (0:ℝ) ≤
      min (5 * ((keywordTokens kw).countP (containsTok (nameAndTypes c)) : ℝ)) 20 :=
    le_min (by positivity) (by norm_num)
  have hl20 :
      min (5 * ((keywordTokens kw).countP (containsTok (nameAndTypes c)) : ℝ)) 20 ≤ 20 :=
    min_le_right _ _
  have ha : (0:ℝ) ≤ (if c.isOpenNow then (10:ℝ) else 0) ∧
      (if c.isOpenNow then (10:ℝ) else 0) ≤ 10 := by
    by_cases h : c.isOpenNow <;> simp [h]
  have hw : (0:ℝ) ≤ (if c.hasWebsite then (5:ℝ) else 0) ∧
      (if c.hasWebsite then (5:ℝ) else 0) ≤ 5 := by
    by_cases h : c.hasWebsite <;> simp [h]
  have hp : (0:ℝ) ≤ (if c.hasPhone then (5:ℝ) else 0) ∧
      (if c.hasPhone then (5:ℝ) else 0) ≤ 5 := by
    by_cases h : c.hasPhone <;> simp [h]
  obtain ⟨ha0, ha1⟩ := ha
  obtain ⟨hw0, hw1⟩ := hw
  obtain ⟨hp0, hp1⟩ := hp
  constructor <;> linarith

/-- C1: for every candidate with rating in [0, 5] and any keyword, the match
score is the rounding of the five weight-scaled components — rating,
log-damped review volume, token-match relevance, open-now and
website/phone presence — it is an integer in [0, 100], and the breakdown
records each component's contribution. -/
theorem c1_score_formula (c : Candidate) (kw : String)
    (h0 : 0 ≤ c.rating) (h5 : c.rating ≤ 5) :
    matchScore c kw =
      jsRound ((c.rating : ℝ) / 5 * 35
        + min (Real.logb 10 ((c.reviewCount : ℝ) + 1) / 2) 1 * 25
        + min (5 * ((keywordTokens kw).countP (containsTok (nameAndTypes c)) : ℝ)) 20
        + (if c.isOpenNow then 10 else 0)
        + ((if c.hasWebsite then 5 else 0) + (if c.hasPhone then 5 else 0))) ∧
    0 ≤ matchScore c kw ∧ matchScore c kw ≤ 100 ∧
    (scoreBreakdown c kw).rating = (c.rating : ℝ) / 5 * 35 ∧
    (scoreBreakdown c kw).reviews =
      min (Real.logb 10 ((c.reviewCount : ℝ) + 1) / 2) 1 * 25 ∧
    (scoreBreakdown c kw).relevance =
      min (5 * ((keywordTokens kw).countP (containsTok (nameAndTypes c)) : ℝ)) 20 ∧
    (scoreBreakdown c kw).active = (if c.isOpenNow then 10 else 0) ∧
    (scoreBreakdown c kw).professional =
      (if c.hasWebsite then 5 else 0) + (if c.hasPhone then 5 else 0) := by
  obtain ⟨hb0, hb1⟩ := totalScore_bounds c kw h0 h5
  refine ⟨by rw [matchScore, totalScore_eq], jsRound_nonneg hb0, jsRound_le_hundred hb1,
    ratingScore_cast c, rfl, relevanceScore_cast c kw, activeScore_cast c,
    professionalScore_cast c⟩

theorem c1_witness :
    (0 ≤ candA.rating ∧ candA.rating ≤ 5) ∧
    0 ≤ matchScore candA "painter" ∧ matchScore candA "painter" ≤ 100 :=
  ⟨⟨by norm_num [candA], by norm_num [candA]⟩,
    (c1_score_formula candA "painter" (by norm_num [candA]) (by norm_num [candA])).2.1,
    (c1_score_formula candA "painter" (by norm_num [candA]) (by norm_num [candA])).2.2.1⟩

def cand5 : Candidate := ⟨"ace painter co", "4 High St", 5, 1000, [], true, true, true⟩

/-- C5 counterexample: `cand5` has rating 5, 1000 reviews, is open and has a
website and phone, and the keyword "painter" is fully contained in its name —
yet its score is 85, not 100: a single matching token earns only 5 of the 20
relevance points, so full containment of the keyword alone never yields a
perfect score. -/
theorem c5_counterexample :
    cand5.rating = 5 ∧ cand5.reviewCount = 1000 ∧ cand5.isOpenNow = true ∧
    cand5.hasWebsite = true ∧ cand5.hasPhone = true ∧
    containsTok cand5.name.data "painter".data = true ∧
    containsTok (nameAndTypes cand5) (lowerChars "painter") = true ∧
    matchScore cand5 "painter" ≠ 100 ∧
    matchScore cand5 "painter" = 85 := by
  have hcount : (keywordTokens "painter").countP (containsTok (nameAndTypes cand5)) = 1 := by
    decide
  have hrel : ((relevanceScore cand5 "painter" : ℚ) : ℝ) = 5 := by
    rw [relevanceScore_cast, hcount]
    norm_num
  have hms : matchScore cand5 "painter" = 85 := by
    unfold matchScore totalScore
    rw [hrel, show cand5.reviewCount = 1000 from rfl, reviewScore_sat (by norm_num)]
    rw [show ((ratingScore cand5 : ℚ) : ℝ) = 35 by norm_num [ratingScore, cand5]]
    rw [show ((activeScore cand5 : ℚ) : ℝ) = 10 by norm_num [activeScore, cand5]]
    rw [show ((professionalScore cand5 : ℚ) : ℝ) = 10 by
      norm_num [professionalScore, cand5]]
    norm_num [jsRound, Int.floor_eq_iff]
  exact ⟨rfl, rfl, rfl, rfl, rfl, by decide, by decide, by rw [hms] ; decide, hms⟩

/-- C5 amended: with rating 5, 1000 reviews, open, website and phone, a
perfect score of 100 is reached exactly when the relevance cap is met, i.e.
when at least 4 of the keyword's whitespace-split lowercase tokens occur in
the lowercased name-plus-categories string (a keyword fully contained in the
name contributes only 5 points per token it consists of). -/
theorem c5_amended_perfect_score (c : Candidate) (kw : String)
    (hr : c.rating = 5) (hn : c.reviewCount = 1000) (ho : c.isOpenNow = true)
    (hw : c.hasWebsite = true) (hp : c.hasPhone = true)
    (hk : 4 ≤ (keywordTokens kw).countP (containsTok (nameAndTypes c))) :
    matchScore c kw = 100 := by
  have hrel : ((relevanceScore c kw : ℚ) : ℝ) = 20 := by
    rw [relevanceScore_cast]
    have : (20:ℝ) ≤ 5 * ((keywordTokens kw).countP (containsTok (nameAndTypes c)) : ℝ) := by
      have : (4:ℝ) ≤ ((keywordTokens kw).countP (containsTok (nameAndTypes c)) : ℝ) := by
        exact_mod_cast hk
      linarith
    rw [min_eq_right this]
  unfold matchScore totalScore
  rw [hrel, hn, reviewScore_sat (by norm_num)]
  rw [show ((ratingScore c : ℚ) : ℝ) = 35 by norm_num [ratingScore, hr]]
  rw [show ((activeScore c : ℚ) : ℝ) = 10 by norm_num [activeScore, ho]]
  rw [show ((professionalScore c : ℚ) : ℝ) = 10 by norm_num [professionalScore, hw, hp]]
  norm_num [jsRound, Int.floor_eq_iff]

def cand5w : Candidate :=
  ⟨"ace quality paint pro", "5 High St", 5, 1000, [], true, true, true⟩

theorem c5_witness :
    cand5w.rating = 5 ∧
    4 ≤ (keywordTokens "ace quality paint pro").countP (containsTok (nameAndTypes cand5w)) ∧
    matchScore cand5w "ace quality paint pro" = 100 :=
  ⟨rfl, by decide,
    c5_amended_perfect_score cand5w "ace quality paint pro" rfl rfl rfl rfl rfl (by decide)⟩

def cand6 : Candidate := ⟨"paint co", "6 High St", 0, 0, [], false, false, false⟩

/-- C6 counterexample: `cand6` has rating 0, zero reviews and no flags, yet
with the keyword "paint" — which occurs in its name — its score is 5, not 0:
the relevance component does not vanish for every keyword. -/
theorem c6_counterexample :
    cand6.rating = 0 ∧ cand6.reviewCount = 0 ∧ cand6.isOpenNow = false ∧
    cand6.hasWebsite = false ∧ cand6.hasPhone = false ∧
    matchScore cand6 "paint" ≠ 0 ∧
    matchScore cand6 "paint" = 5 := by
  have hcount : (keywordTokens "paint").countP (containsTok (nameAndTypes cand6)) = 1 := by
    decide
  have hrel : ((relevanceScore cand6 "paint" : ℚ) : ℝ) = 5 := by
    rw [relevanceScore_cast, hcount]
    norm_num
  have hms : matchScore cand6 "paint" = 5 := by
    unfold matchScore totalScore
    rw [hrel, show cand6.reviewCount = 0 from rfl, reviewScore_zero]
    rw [show ((ratingScore cand6 : ℚ) : ℝ) = 0 by norm_num [ratingScore, cand6]]
    rw [show ((activeScore cand6 : ℚ) : ℝ) = 0 by norm_num [activeScore, cand6]]
    rw [show ((professionalScore cand6 : ℚ) : ℝ) = 0 by
      norm_num [professionalScore, cand6]]
    norm_num [jsRound, Int.floor_eq_iff]
  exact ⟨rfl, rfl, rfl, rfl, rfl, by rw [hms] ; decide, hms⟩

/-- C6 amended: with rating 0, zero reviews and no flags, the score is 0 for
exactly those keywords none of whose whitespace-split lowercase tokens occurs
in the lowercased name-plus-categories string. -/
theorem c6_amended_zero_score (c : Candidate) (kw : String)
    (hr : c.rating = 0) (hn : c.reviewCount = 0) (ho : c.isOpenNow = false)
    (hw : c.hasWebsite = false) (hp : c.hasPhone = false)
    (hk : (keywordTokens kw).countP (containsTok (nameAndTypes c)) = 0) :
    matchScore c kw = 0 := by
  have hrel : ((relevanceScore c kw : ℚ) : ℝ) = 0 := by
    rw [relevanceScore_cast, hk]
    norm_num
  unfold matchScore totalScore
  rw [hrel, hn, reviewScore_zero]
  rw [show ((ratingScore c : ℚ) : ℝ) = 0 by norm_num [ratingScore, hr]]
  rw [show ((activeScore c : ℚ) : ℝ) = 0 by norm_num [activeScore, ho]]
  rw [show ((professionalScore c : ℚ) : ℝ) = 0 by norm_num [professionalScore, hw, hp]]
  norm_num [jsRound, Int.floor_eq_iff]

def cand6w : Candidate := ⟨"zzz builders", "7 High St", 0, 0, [], false, false, false⟩

theorem c6_witness :
    (keywordTokens "plumbing").countP (containsTok (nameAndTypes cand6w)) = 0 ∧
    matchScore cand6w "plumbing" = 0 :=
  ⟨by decide,
    c6_amended_zero_score cand6w "plumbing" rfl rfl rfl rfl rfl (by decide)⟩

/-- C8: the ranked list returned by `rank` never holds more than `topN`
entries, however many candidates pass filtering. -/
theorem c8_topN_cap (cfg : RankerConfig) (cands : List Candidate)
    (kw : String) (topN : ℕ) :
    ((rank cfg cands kw topN).1).length ≤ topN := by
  unfold rank
  exact List.length_take_le topN _

lemma leScore_trans : ∀ a b c : RankedContractor,
    leScore a b → leScore b c → leScore a c := by
  intro a b c hab hbc
  simp only [leScore, decide_eq_true_eq] at hab hbc ⊢
  omega

lemma leScore_total : ∀ a b : RankedContractor, leScore a b || leScore b a := by
  intro a b
  simp only [leScore, Bool.or_eq_true, decide_eq_true_eq]
  omega

/-- Stability of the sort: within one score value the sorted order is the
pre-sort (input) order. -/
lemma mergeSort_filter_score (l : List RankedContractor) (s : ℤ) :
    ((l.mergeSort leScore).filter (fun r => r.matchScore == s)) =
      l.filter (fun r => r.matchScore == s) := by
  have hc : (l.filter (fun r => r.matchScore == s)).Pairwise
      (fun a b => leScore a b = true) := by
    apply List.pairwise_of_forall_mem_list
    intro a ha b hb
    have ha' := (List.mem_filter.mp ha).2
    have hb' := (List.mem_filter.mp hb).2
    simp only [beq_iff_eq] at ha' hb'
    simp only [leScore, decide_eq_true_eq, ha', hb']
    omega
  have hsub : List.Sublist (l.filter (fun r => r.matchScore == s)) (l.mergeSort leScore) :=
    List.sublist_mergeSort leScore_trans leScore_total hc (List.filter_sublist l)
  have h1 : List.Sublist (l.filter (fun r => r.matchScore == s))
      ((l.mergeSort leScore).filter (fun r => r.matchScore == s)) := by
    have h2 := hsub.filter (fun r => r.matchScore == s)
    rwa [List.filter_filter, show
        (fun r : RankedContractor => (r.matchScore == s) && (r.matchScore == s)) =
          (fun r : RankedContractor => r.matchScore == s) from
      funext (fun r => Bool.and_self _)] at h2
  have hlen : ((l.mergeSort leScore).filter (fun r => r.matchScore == s)).length =
      (l.filter (fun r => r.matchScore == s)).length :=
    ((List.mergeSort_perm l leScore).filter _).length_eq
  exact (h1.eq_of_length hlen.symm).symm

/-- C9: `rank` is deterministic — identical input gives identical output —
its output is sorted descending by `matchScore`, and within one score value
the output preserves the candidates' relative input order (the stable
tie-break of JS `Array.prototype.sort`). -/
theorem c9_deterministic_sorted_stable (cfg : RankerConfig) (cands : List Candidate)
    (kw : String) (topN : ℕ) :
    rank cfg cands kw topN = rank cfg cands kw topN ∧
    ((rank cfg cands kw topN).1).Pairwise (fun a b => b.matchScore ≤ a.matchScore) ∧
    (∀ s : ℤ, List.Sublist
      (((rank cfg cands kw topN).1).filter (fun r => r.matchScore == s))
      ((scoredList cfg cands kw).filter (fun r => r.matchScore == s))) := by
  refine ⟨rfl, ?_, ?_⟩
  · have hs := List.sorted_mergeSort leScore_trans leScore_total (scoredList cfg cands kw)
    have hs' : ((scoredList cfg cands kw).mergeSort leScore).Pairwise
        (fun a b => b.matchScore ≤ a.matchScore) :=
      hs.imp (fun h => by simpa [leScore, decide_eq_true_eq] using h)
    exact List.Pairwise.sublist (List.take_sublist _ _) hs'
  · intro s
    have heq := mergeSort_filter_score (scoredList cfg cands kw) s
    have hsub : List.Sublist
        (((rank cfg cands kw topN).1).filter (fun r => r.matchScore == s))
        (((scoredList cfg cands kw).mergeSort leScore).filter (fun r => r.matchScore == s)) :=
      (List.take_sublist _ _).filter _
    rwa [heq] at hsub

end TradeEstimator
